import Mathlib

/-!
Shallow embedding of `src/useAntiInspect.js`, a React hook that reacts to
devtools-related signals (window resize, context menu, keydown) by wiping
client-side storage and silencing the console.

Strings are modelled as `List Char`; JavaScript's `String.prototype.split`
and the two regex replaces on cookie segments are translated directly.
The browser collaborators (cookie jar, storage areas, event listener table,
console slots) are modelled explicitly as state so that the handlers become
state transformers.
-/

set_option autoImplicit false

namespace AntiInspect

/-- Strings of the embedding: JavaScript strings as lists of characters. -/
abbrev Str := List Char

/-- Coerce a Lean string literal into the embedding's string type. -/
def strOf (s : String) : Str := s.data

/-! ### JavaScript `split` -/

/-- JavaScript `s.split(sep)` for a one-character separator: splits at every
occurrence of the separator, keeps empty segments, and yields `[""]` on the
empty string. -/
def jsSplit (sep : Char) : Str → List Str
  | [] => [[]]
  | c :: cs =>
    if c = sep then [] :: jsSplit sep cs
    else
      match jsSplit sep cs with
      | [] => [[c]]
      | seg :: rest => (c :: seg) :: rest

/-! ### The cookie-expiry transformation (src/useAntiInspect.js lines 86-90) -/

/-- `cookie.replace(/^ +/, "")`: drop the leading run of spaces. -/
def stripLeadingSpaces (s : Str) : Str := s.dropWhile (fun c => c = ' ')

/-- `new Date(0).toUTCString()`: the fixed Unix-epoch date constant. -/
def epochDate : Str := strOf "Thu, 01 Jan 1970 00:00:00 GMT"

/-- The replacement text of line 89: `=;expires=<epoch-date>;path=/`. -/
def expireSuffix : Str := strOf "=;expires=" ++ epochDate ++ strOf ";path=/"

/-- `cookie.replace(/=.*,/ ...)` step of line 89: if the segment contains `=`,
replace everything from the first `=` to the end by `expireSuffix`; otherwise
the segment is unchanged.  (A `document.cookie` string never contains line
terminators, so the regex `.` spans the whole remainder.) -/
def replaceFromEq (s : Str) : Str :=
  if '=' ∈ s then s.takeWhile (fun c => c ≠ '=') ++ expireSuffix else s

/-- The full per-segment transformation of lines 87-89. -/
def cookieExpireString (cookie : Str) : Str :=
  replaceFromEq (stripLeadingSpaces cookie)

/-- The list of cookie assignments issued by lines 86-90, one per segment of
`document.cookie.split(";")`. -/
def cookieAssignments (cookieString : Str) : List Str :=
  (jsSplit ';' cookieString).map cookieExpireString

/-! ### The browser cookie surface (external collaborator)

The repository only writes `document.cookie`; the jar semantics below model
the browser: the jar is a list of name/value pairs, the getter renders them
joined by `"; "`, and an assignment whose attribute list carries an
`expires` attribute equal to the Unix epoch removes the named cookie.
An empty assignment is ignored. -/

/-- A cookie jar: the browser's store of name/value pairs. -/
abbrev Jar := List (Str × Str)

/-- Render one jar entry as `name=value`. -/
def entryStr (c : Str × Str) : Str := c.1 ++ '=' :: c.2

/-- The `document.cookie` getter: entries joined by `"; "`. -/
def renderCookies : Jar → Str
  | [] => []
  | [c] => entryStr c
  | c :: c2 :: rest => entryStr c ++ ';' :: ' ' :: renderCookies (c2 :: rest)

/-- The epoch-dated `expires` attribute, as it appears in a written
assignment once the attributes are split at `;`. -/
def epochExpiresAttr : Str := strOf "expires=" ++ epochDate

/-- The `document.cookie` setter: parse `name=value;attr;attr`; an epoch
`expires` attribute deletes the named cookie, otherwise the cookie is set.
An assignment with an empty name/value part is ignored. -/
def cookieWrite (jar : Jar) (assignment : Str) : Jar :=
  let parts := jsSplit ';' assignment
  let nv := parts.headD []
  if nv.isEmpty then jar
  else
    let name := nv.takeWhile (fun c => c ≠ '=')
    if (parts.drop 1).contains epochExpiresAttr then
      jar.filter (fun c => c.1 ≠ name)
    else
      jar.filter (fun c => c.1 ≠ name) ++ [(name, (nv.dropWhile (fun c => c ≠ '=')).drop 1)]

/-- Lines 86-90 of the source: read `document.cookie` once, split it, and
issue one expiry assignment per segment against the jar. -/
def wipeCookies (jar : Jar) : Jar :=
  (cookieAssignments (renderCookies jar)).foldl cookieWrite jar

/-! ### The wipe reaction `handleDevToolsOpen` (lines 82-91) -/

/-- The browser state touched by the wipe. -/
@[ext] structure WipeState where
  localStorage : List (Str × Str)
  sessionStorage : List (Str × Str)
  cookies : Jar
  deriving DecidableEq

/-- `handleDevToolsOpen` (lines 82-91): `localStorage.clear()`,
`sessionStorage.clear()`, then the per-cookie expiry loop. -/
def handleDevToolsOpen (s : WipeState) : WipeState :=
  let s1 := { s with localStorage := [] }
  let s2 := { s1 with sessionStorage := [] }
  { s2 with cookies := wipeCookies s2.cookies }

/-- A host environment in which each collaborator surface used by the wipe
may throw (e.g. privacy-mode restrictions, §7 EnvironmentUnavailable). -/
structure StorageEnv where
  localThrows : Bool
  sessionThrows : Bool
  cookieThrows : Bool
  deriving DecidableEq

/-- `handleDevToolsOpen` (lines 82-91) run in a host environment in which a
collaborator surface may throw.  The source has no try/catch, so execution
is the straight-line sequence, stopping at the first throw; the result is
the state reached together with the raised error, if any. -/
def handleDevToolsOpenE (env : StorageEnv) (s : WipeState) : WipeState × Option String :=
  if env.localThrows then (s, some "localStorage unavailable")
  else
    let s1 := { s with localStorage := [] }
    if env.sessionThrows then (s1, some "sessionStorage unavailable")
    else
      let s2 := { s1 with sessionStorage := [] }
      if env.cookieThrows then (s2, some "document.cookie unavailable")
      else ({ s2 with cookies := wipeCookies s2.cookies }, none)

/-! ### The detector and the event handlers (lines 22-72) -/

/-- The four viewport readings used by `detectDevTools`. -/
structure Geometry where
  outerWidth : Int
  innerWidth : Int
  outerHeight : Int
  innerHeight : Int
  deriving DecidableEq

/-- An event object as the keydown/resize handlers see it: `keyCode` is
`none` when the event carries no such property (a plain resize `Event`). -/
structure KeyEventObj where
  keyCode : Option Int
  ctrlKey : Bool
  shiftKey : Bool
  deriving DecidableEq

/-- A context-menu (mouse) event object; the handler ignores its contents. -/
structure MouseEventObj where
  button : Int
  clientX : Int
  clientY : Int
  deriving DecidableEq

/-- JavaScript optional chaining `e?.keyCode`: yields `undefined` (here
`none`) when `e` itself is `undefined`, and never throws. -/
def jsOptKeyCode : Option KeyEventObj → Option Int
  | none => none
  | some e => e.keyCode

/-- The observable side effects a handler can perform, in order. -/
inductive Action where
  | preventDefault
  | wipe
  deriving DecidableEq

/-- `detectDevTools` (lines 22-31): fires the wipe when a geometry threshold
is exceeded or `e?.keyCode === 123`.  The handler is modelled in `Except`:
its only candidate throw site is the member access on `e`, and the source
uses optional chaining there, so every run returns `Except.ok`. -/
def detectDevTools (g : Geometry) (e : Option KeyEventObj) : Except String (List Action) :=
  let widthThreshold := decide (g.outerWidth - g.innerWidth > 160)
  let heightThreshold := decide (g.outerHeight - g.innerHeight > 160)
  let isF12 := jsOptKeyCode e == some 123
  if widthThreshold || heightThreshold || isF12 then .ok [.wipe] else .ok []

/-- `disableRightClick` (lines 39-42): unconditionally `e.preventDefault()`
then `handleDevToolsOpen()`. -/
def disableRightClick (_e : MouseEventObj) : List Action :=
  [.preventDefault, .wipe]

/-- The keydown condition of lines 60-67. -/
def keydownMatches (e : KeyEventObj) : Bool :=
  (e.ctrlKey && e.shiftKey &&
      (e.keyCode == some 73 || e.keyCode == some 74 || e.keyCode == some 67))
    || (e.ctrlKey && e.keyCode == some 85)
    || (e.keyCode == some 123)

/-- `disableKeyboardShortcuts` (lines 58-72): on a matching shortcut,
`e.preventDefault()` then `handleDevToolsOpen()`. -/
def disableKeyboardShortcuts (e : KeyEventObj) : List Action :=
  if keydownMatches e then [.preventDefault, .wipe] else []

/-! ### The effect body and its cleanup (lines 93-110) -/

/-- A console function reference: either a function the hosting page owned
before activation (identified by an id), or the fresh no-op
`function () {}` the effect installs. -/
inductive Fn where
  | host (id : Nat)
  | guardNoop
  deriving DecidableEq

/-- Observable output of calling a console function reference: the guard's
no-op has an empty body, so it produces nothing; a host function's output
is supplied by the page. -/
def callOutput (out : Nat → List String) : Fn → List String
  | .host i => out i
  | .guardNoop => []

/-- The three handler identities registered by the effect. -/
inductive Handler where
  | detectDevTools
  | disableRightClick
  | disableKeyboardShortcuts
  deriving DecidableEq

/-- The three event kinds the effect subscribes to. -/
inductive EventKind where
  | resize
  | contextmenu
  | keydown
  deriving DecidableEq

/-- `addEventListener`: a (kind, handler) pair already registered is not
added again; otherwise it is appended. -/
def addEventListener (l : List (EventKind × Handler)) (k : EventKind) (h : Handler) :
    List (EventKind × Handler) :=
  if (k, h) ∈ l then l else l ++ [(k, h)]

/-- `removeEventListener`: removes the (kind, handler) pair; removing an
absent pair is a no-op. -/
def removeEventListener (l : List (EventKind × Handler)) (k : EventKind) (h : Handler) :
    List (EventKind × Handler) :=
  l.filter (fun p => p ≠ (k, h))

/-- The host state the effect body manipulates: the five console slots and
the listener table. -/
@[ext] structure GuardHostState where
  consoleLog : Fn
  consoleWarn : Fn
  consoleError : Fn
  consoleDebug : Fn
  consoleInfo : Fn
  listeners : List (EventKind × Handler)
  deriving DecidableEq

/-- What the effect's cleanup closure captures: `consoleOutput`, the saved
`console.log` of line 97. -/
structure GuardHandle where
  consoleOutput : Fn
  deriving DecidableEq

/-- The effect body (lines 93-102): register the three listeners, save
`console.log` into `consoleOutput`, and replace all five console slots with
fresh no-ops.  Returns the new state and the captured handle. -/
def effectSetup (s : GuardHostState) : GuardHostState × GuardHandle :=
  let s1 := { s with listeners := addEventListener s.listeners .resize .detectDevTools }
  let s2 := { s1 with listeners := addEventListener s1.listeners .contextmenu .disableRightClick }
  let s3 := { s2 with listeners := addEventListener s2.listeners .keydown .disableKeyboardShortcuts }
  let saved := s3.consoleLog
  ({ s3 with
      consoleLog := .guardNoop
      consoleWarn := .guardNoop
      consoleError := .guardNoop
      consoleDebug := .guardNoop
      consoleInfo := .guardNoop }, ⟨saved⟩)

/-- The cleanup function (lines 105-110): remove the three listeners and
assign the saved `consoleOutput` back to `console.log`.  (The other four
slots are not touched by the source.) -/
def effectCleanup (h : GuardHandle) (s : GuardHostState) : GuardHostState :=
  let s1 := { s with listeners := removeEventListener s.listeners .resize .detectDevTools }
  let s2 := { s1 with listeners := removeEventListener s1.listeners .contextmenu .disableRightClick }
  let s3 := { s2 with listeners := removeEventListener s2.listeners .keydown .disableKeyboardShortcuts }
  { s3 with consoleLog := h.consoleOutput }

/-! ### Spec-worded variant and demonstration states -/

/-- The per-segment transformation as the C3 claim words it: strip a SINGLE
leading space (not the whole leading run), then replace everything from the
first `=` through the end.  Declared only to compare the claim's wording
with `cookieExpireString`, which follows the source regexes. -/
def claimSegmentString (s : Str) : Str :=
  replaceFromEq (match s with
    | ' ' :: rest => rest
    | t => t)

/-- A page state whose five console slots hold five distinct host
functions, used to evaluate the effect body and its cleanup. -/
def demoConsole : GuardHostState :=
  { consoleLog := .host 0
    consoleWarn := .host 1
    consoleError := .host 2
    consoleDebug := .host 3
    consoleInfo := .host 4
    listeners := [] }

/-- A populated storage/cookie state, used as concrete input to the wipe. -/
def demoWipe : WipeState :=
  { localStorage := [(strOf "k", strOf "v")]
    sessionStorage := [(strOf "t", strOf "u")]
    cookies := [(strOf "a", strOf "1"), (strOf "b", strOf "2")] }

/-! ### Lemmas about `jsSplit` -/

theorem jsSplit_ne_nil (sep : Char) (s : Str) : jsSplit sep s ≠ [] := by
  induction s with
  | nil => simp [jsSplit]
  | cons c cs ih =>
    by_cases h : c = sep
    · simp [jsSplit, h]
    · simp only [jsSplit, if_neg h]
      cases hs : jsSplit sep cs with
      | nil => simp
      | cons seg rest => simp

theorem jsSplit_no_sep {sep : Char} {s : Str} (h : sep ∉ s) : jsSplit sep s = [s] := by
  induction s with
  | nil => rfl
  | cons c cs ih =>
    have hc : c ≠ sep := fun hc => h (hc ▸ List.mem_cons_self c cs)
    have hcs : sep ∉ cs := fun hm => h (List.mem_cons_of_mem c hm)
    simp [jsSplit, hc, ih hcs]

theorem jsSplit_append_sep {sep : Char} {xs : Str} (ys : Str) (h : sep ∉ xs) :
    jsSplit sep (xs ++ sep :: ys) = xs :: jsSplit sep ys := by
  induction xs with
  | nil => simp [jsSplit]
  | cons x xs ih =>
    have hx : x ≠ sep := fun hx => h (hx ▸ List.mem_cons_self x xs)
    have hxs : sep ∉ xs := fun hm => h (List.mem_cons_of_mem x hm)
    simp [jsSplit, hx, ih hxs]

theorem jsSplit_cons_ne {sep c : Char} {s seg : Str} {rest : List Str} (hc : c ≠ sep)
    (hs : jsSplit sep s = seg :: rest) : jsSplit sep (c :: s) = (c :: seg) :: rest := by
  simp [jsSplit, hc, hs]

/-! ### Lemmas about the per-segment transformation -/

theorem stripLeadingSpaces_cons_space (s : Str) :
    stripLeadingSpaces (' ' :: s) = stripLeadingSpaces s := by
  simp [stripLeadingSpaces, List.dropWhile_cons]

theorem stripLeadingSpaces_entry {n : Str} (v : Str) (hn : ' ' ∉ n) :
    stripLeadingSpaces (n ++ '=' :: v) = n ++ '=' :: v := by
  cases n with
  | nil => simp [stripLeadingSpaces, List.dropWhile_cons]
  | cons c n' =>
    have hc : c ≠ ' ' := fun hc => hn (hc ▸ List.mem_cons_self c n')
    simp [stripLeadingSpaces, List.dropWhile_cons, hc]

theorem takeWhile_until_eq {n : Str} (v : Str) (hn : '=' ∉ n) :
    List.takeWhile (fun c => c ≠ '=') (n ++ '=' :: v) = n := by
  induction n with
  | nil => simp [List.takeWhile_cons]
  | cons c n' ih =>
    have hc : c ≠ '=' := fun hc => hn (hc ▸ List.mem_cons_self c n')
    have hn' : '=' ∉ n' := fun hm => hn (List.mem_cons_of_mem c hm)
    simp only [List.cons_append, List.takeWhile_cons, hc, decide_not]
    simpa using ih hn'

theorem replaceFromEq_entry {n : Str} (v : Str) (hn : '=' ∉ n) :
    replaceFromEq (n ++ '=' :: v) = n ++ expireSuffix := by
  have hmem : '=' ∈ n ++ '=' :: v := List.mem_append_right _ (List.mem_cons_self _ _)
  unfold replaceFromEq
  rw [if_pos hmem, takeWhile_until_eq v hn]

theorem cookieExpireString_entry {n : Str} (v : Str) (hn : '=' ∉ n) (hsp : ' ' ∉ n) :
    cookieExpireString (n ++ '=' :: v) = n ++ expireSuffix := by
  unfold cookieExpireString
  rw [stripLeadingSpaces_entry v hsp, replaceFromEq_entry v hn]

theorem cookieExpireString_cons_space (s : Str) :
    cookieExpireString (' ' :: s) = cookieExpireString s := by
  unfold cookieExpireString
  rw [stripLeadingSpaces_cons_space]

theorem dropWhile_space_append (a b : Str) :
    List.dropWhile (fun c => c = ' ') (a ++ '=' :: b) =
      List.dropWhile (fun c => c = ' ') a ++ '=' :: b := by
  induction a with
  | nil => simp [List.dropWhile_cons]
  | cons c a' ih =>
    by_cases hc : c = ' '
    · simp [List.dropWhile_cons, hc, ih]
    · simp [List.dropWhile_cons, hc]

/-! ### Well-formed cookie jars

The browser cookie surface guarantees that a stored cookie name contains no
`;`, `=` or space, and that a stored value contains no `;`; these are the
invariants of the collaborator, under which the wipe's string handling is
analysed. -/

/-- Well-formedness of one jar entry, guaranteed by the cookie surface. -/
def wfEntry (c : Str × Str) : Prop :=
  ';' ∉ c.1 ∧ '=' ∉ c.1 ∧ ' ' ∉ c.1 ∧ ';' ∉ c.2

/-- Well-formedness of a jar. -/
def wfJar (jar : Jar) : Prop := ∀ c ∈ jar, wfEntry c

instance (c : Str × Str) : Decidable (wfEntry c) := by
  unfold wfEntry; infer_instance

instance (jar : Jar) : Decidable (wfJar jar) := by
  unfold wfJar; infer_instance

theorem semicolon_not_mem_entry {c : Str × Str} (h : wfEntry c) : ';' ∉ entryStr c := by
  rcases h with ⟨h1, _, _, h4⟩
  intro hm
  rcases List.mem_append.1 hm with hm | hm
  · exact h1 hm
  · rcases List.mem_cons.1 hm with hm | hm
    · exact absurd hm (by decide)
    · exact h4 hm

/-- On a well-formed nonempty jar, the assignments issued by the cookie loop
are exactly one expiry assignment per stored cookie, in order. -/
theorem cookieAssignments_render {jar : Jar} (hwf : wfJar jar) (hne : jar ≠ []) :
    cookieAssignments (renderCookies jar) = jar.map (fun c => c.1 ++ expireSuffix) := by
  induction jar with
  | nil => exact absurd rfl hne
  | cons c rest ih =>
    have hc : wfEntry c := hwf c (List.mem_cons_self _ _)
    have hwrest : wfJar rest := fun d hd => hwf d (List.mem_cons_of_mem _ hd)
    have hentry : cookieExpireString (entryStr c) = c.1 ++ expireSuffix :=
      cookieExpireString_entry c.2 hc.2.1 hc.2.2.1
    cases rest with
    | nil =>
      unfold cookieAssignments
      simp only [renderCookies]
      rw [jsSplit_no_sep (semicolon_not_mem_entry hc)]
      simp only [List.map_cons, List.map_nil, hentry]
    | cons c2 rest' =>
      have ihr := ih hwrest (by simp)
      unfold cookieAssignments at ihr ⊢
      simp only [renderCookies]
      rw [jsSplit_append_sep _ (semicolon_not_mem_entry hc)]
      obtain ⟨seg, srest, hseg⟩ :
          ∃ seg srest, jsSplit ';' (renderCookies (c2 :: rest')) = seg :: srest := by
        cases h : jsSplit ';' (renderCookies (c2 :: rest')) with
        | nil => exact absurd h (jsSplit_ne_nil _ _)
        | cons a b => exact ⟨a, b, rfl⟩
      rw [jsSplit_cons_ne (by decide) hseg]
      rw [hseg] at ihr
      simp only [List.map_cons] at ihr ⊢
      rw [hentry, cookieExpireString_cons_space, ihr]

/-! ### Lemmas about `cookieWrite` and the full cookie wipe -/

theorem expireSuffix_decomp :
    expireSuffix = '=' :: ';' :: (epochExpiresAttr ++ ';' :: strOf "path=/") := by decide

theorem cookieWrite_expiry {jar : Jar} {n : Str} (hsemi : ';' ∉ n) (heq : '=' ∉ n) :
    cookieWrite jar (n ++ expireSuffix) = jar.filter (fun c => c.1 ≠ n) := by
  have hsplit : jsSplit ';' (n ++ expireSuffix) =
      (n ++ ['=']) :: epochExpiresAttr :: [strOf "path=/"] := by
    rw [expireSuffix_decomp]
    have h1 : n ++ '=' :: ';' :: (epochExpiresAttr ++ ';' :: strOf "path=/") =
        (n ++ ['=']) ++ ';' :: (epochExpiresAttr ++ ';' :: strOf "path=/") := by
      simp
    rw [h1]
    have h2 : ';' ∉ n ++ ['='] := by
      intro hm
      rcases List.mem_append.1 hm with hm | hm
      · exact hsemi hm
      · rcases List.mem_cons.1 hm with hm | hm
        · exact absurd hm (by decide)
        · simp at hm
    rw [jsSplit_append_sep _ h2,
        jsSplit_append_sep _ (show ';' ∉ epochExpiresAttr by decide),
        jsSplit_no_sep (show ';' ∉ strOf "path=/" by decide)]
  have hne : (n ++ ['=']).isEmpty = false := by cases n <;> rfl
  simp only [cookieWrite, hsplit, List.headD_cons, hne, Bool.false_eq_true, if_false,
    List.drop_succ_cons, List.drop_zero, List.contains_cons, beq_self_eq_true, Bool.true_or,
    if_true]
  rw [show n ++ ['='] = n ++ '=' :: [] from rfl, takeWhile_until_eq [] heq]

theorem foldl_cookieWrite_expiry (names : List Str) (jar : Jar)
    (hwf : ∀ n ∈ names, ';' ∉ n ∧ '=' ∉ n)
    (hcov : ∀ c ∈ jar, c.1 ∈ names) :
    (names.map (fun n => n ++ expireSuffix)).foldl cookieWrite jar = [] := by
  induction names generalizing jar with
  | nil =>
    have hj : jar = [] :=
      List.eq_nil_iff_forall_not_mem.2 (fun c hc => absurd (hcov c hc) (List.not_mem_nil _))
    simp [hj]
  | cons n ns ih =>
    simp only [List.map_cons, List.foldl_cons]
    rw [cookieWrite_expiry (hwf n (List.mem_cons_self _ _)).1 (hwf n (List.mem_cons_self _ _)).2]
    apply ih
    · intro m hm
      exact hwf m (List.mem_cons_of_mem _ hm)
    intro c hc
    have hmem := List.mem_filter.1 hc
    have h2 : c.1 ≠ n := by simpa using hmem.2
    rcases List.mem_cons.1 (hcov c hmem.1) with h | h
    · exact absurd h h2
    · exact h

/-- The cookie loop of lines 86-90 empties a well-formed jar. -/
theorem wipeCookies_eq_nil {jar : Jar} (hwf : wfJar jar) : wipeCookies jar = [] := by
  cases jar with
  | nil => decide
  | cons c rest =>
    unfold wipeCookies
    rw [cookieAssignments_render hwf (by simp)]
    have hmm : (c :: rest).map (fun d => d.1 ++ expireSuffix) =
        ((c :: rest).map Prod.fst).map (fun n => n ++ expireSuffix) := by
      simp [List.map_map]
    rw [hmm]
    refine foldl_cookieWrite_expiry _ _ ?_ ?_
    · intro n hn
      rcases List.mem_map.1 hn with ⟨d, hd, rfl⟩
      exact ⟨(hwf d hd).1, (hwf d hd).2.1⟩
    · intro d hd
      exact List.mem_map_of_mem _ hd

/-! ### Claim theorems -/

/-- C3, counterexample: the claim's per-segment transformation ("strips a
single leading space") disagrees with the source on the cookie string
`"a=1;  b=2"`, whose second segment carries two leading spaces: the source
regex `/^ +/` strips the whole run. -/
theorem c3_single_space_counterexample :
    (jsSplit ';' (strOf "a=1;  b=2")).map claimSegmentString ≠
      cookieAssignments (strOf "a=1;  b=2") := by decide

/-- C3, amended: for every cookie string the wipe issues one assignment per
`;`-segment; each segment has its whole leading run of spaces stripped (not
just a single space) and everything from the first `=` through the end
replaced by `=;expires=Thu, 01 Jan 1970 00:00:00 GMT;path=/`; in
particular the input `"a=1; b=2"` yields exactly two expiry assignments,
one for `a` and one for `b`. -/
theorem c3_cookie_expiry_amended (a b : Str) (ha : '=' ∉ a) :
    cookieExpireString (a ++ '=' :: b) =
      a.dropWhile (fun c => c = ' ') ++ expireSuffix
  ∧ cookieAssignments (strOf "a=1; b=2") =
      [strOf "a=;expires=Thu, 01 Jan 1970 00:00:00 GMT;path=/",
       strOf "b=;expires=Thu, 01 Jan 1970 00:00:00 GMT;path=/"]
  ∧ cookieAssignments (strOf "a=1;  b=2") =
      [strOf "a=;expires=Thu, 01 Jan 1970 00:00:00 GMT;path=/",
       strOf "b=;expires=Thu, 01 Jan 1970 00:00:00 GMT;path=/"] := by
  refine ⟨?_, by decide, by decide⟩
  unfold cookieExpireString stripLeadingSpaces
  rw [dropWhile_space_append]
  exact replaceFromEq_entry b
    (fun hm => ha ((List.dropWhile_sublist _).subset hm))

theorem c3_cookie_expiry_amended_witness :
    '=' ∉ strOf " a"
  ∧ cookieExpireString (strOf " a" ++ '=' :: strOf "1") =
      (strOf " a").dropWhile (fun c => c = ' ') ++ expireSuffix :=
  ⟨by decide, (c3_cookie_expiry_amended (strOf " a") (strOf "1") (by decide)).1⟩

/-- C4: for a resize signal whose event carries no keyCode, the detector
fires the wipe exactly when `outerWidth - innerWidth > 160` or
`outerHeight - innerHeight > 160`, and stays silent exactly when both
differences are at most 160. -/
theorem c4_resize_classification (g : Geometry) (e : Option KeyEventObj)
    (hkc : jsOptKeyCode e = none) :
    (detectDevTools g e = .ok [Action.wipe] ↔
        (g.outerWidth - g.innerWidth > 160 ∨ g.outerHeight - g.innerHeight > 160))
  ∧ (detectDevTools g e = .ok [] ↔
        (g.outerWidth - g.innerWidth ≤ 160 ∧ g.outerHeight - g.innerHeight ≤ 160)) := by
  unfold detectDevTools
  rw [hkc]
  by_cases hw : g.outerWidth - g.innerWidth > 160 <;>
    by_cases hh : g.outerHeight - g.innerHeight > 160 <;>
      (simp [hw, hh]; try omega)

theorem c4_resize_classification_witness :
    jsOptKeyCode (none : Option KeyEventObj) = none
  ∧ (detectDevTools ⟨400, 100, 300, 300⟩ none = .ok [Action.wipe] ↔
      ((400 : Int) - 100 > 160 ∨ (300 : Int) - 300 > 160)) :=
  ⟨rfl, (c4_resize_classification ⟨400, 100, 300, 300⟩ none rfl).1⟩

/-- C5: a keydown signal is classified suspicious exactly when
(ctrl ∧ shift ∧ keyCode ∈ {73, 74, 67}) or (ctrl ∧ keyCode = 85) or
keyCode = 123; in particular the five listed shortcuts match and
KeyDown(65, false, false) does not. -/
theorem c5_keydown_classification :
    (∀ (kc : Int) (ctrl shift : Bool),
        keydownMatches ⟨some kc, ctrl, shift⟩ = true ↔
          ((ctrl = true ∧ shift = true ∧ (kc = 73 ∨ kc = 74 ∨ kc = 67))
            ∨ (ctrl = true ∧ kc = 85) ∨ kc = 123))
  ∧ keydownMatches ⟨some 73, true, true⟩ = true
  ∧ keydownMatches ⟨some 74, true, true⟩ = true
  ∧ keydownMatches ⟨some 67, true, true⟩ = true
  ∧ keydownMatches ⟨some 85, true, false⟩ = true
  ∧ (∀ ctrl shift, keydownMatches ⟨some 123, ctrl, shift⟩ = true)
  ∧ keydownMatches ⟨some 65, false, false⟩ = false := by
  refine ⟨?_, by decide, by decide, by decide, by decide, ?_, by decide⟩
  · intro kc ctrl shift
    cases ctrl <;> cases shift <;> (simp [keydownMatches]; try tauto)
  · intro ctrl shift
    simp [keydownMatches]

/-- C6: every context-menu signal triggers the wipe regardless of its
contents, and for context-menu signals and matching keydown signals the
handler performs `preventDefault` before the wipe reaction. -/
theorem c6_contextmenu_and_suppression :
    (∀ e : MouseEventObj, disableRightClick e = [Action.preventDefault, Action.wipe])
  ∧ (∀ e : KeyEventObj, keydownMatches e = true →
        disableKeyboardShortcuts e = [Action.preventDefault, Action.wipe]) :=
  ⟨fun _ => rfl, fun _ h => by simp [disableKeyboardShortcuts, h]⟩

theorem c6_contextmenu_and_suppression_witness :
    keydownMatches ⟨some 123, false, false⟩ = true
  ∧ disableKeyboardShortcuts ⟨some 123, false, false⟩ =
      [Action.preventDefault, Action.wipe] :=
  ⟨by decide, c6_contextmenu_and_suppression.2 ⟨some 123, false, false⟩ (by decide)⟩

/-- C7: the resize handler also tests keyCode 123 on its event parameter
with no modifier requirement: even when neither geometry threshold is
exceeded, an event with keyCode 123 fires the wipe, just as a standalone
F12 key signal fires it. -/
theorem c7_resize_f12 (g : Geometry) (e : KeyEventObj)
    (_hw : g.outerWidth - g.innerWidth ≤ 160)
    (_hh : g.outerHeight - g.innerHeight ≤ 160)
    (hk : e.keyCode = some 123) :
    detectDevTools g (some e) = .ok [Action.wipe]
  ∧ Action.wipe ∈ disableKeyboardShortcuts e := by
  constructor
  · unfold detectDevTools
    simp [jsOptKeyCode, hk]
  · have hm : keydownMatches e = true := by simp [keydownMatches, hk]
    simp [disableKeyboardShortcuts, hm]

theorem c7_resize_f12_witness :
    ((100 : Int) - 100 ≤ 160) ∧ ((100 : Int) - 100 ≤ 160)
  ∧ (⟨some 123, false, false⟩ : KeyEventObj).keyCode = some 123
  ∧ (detectDevTools ⟨100, 100, 100, 100⟩ (some ⟨some 123, false, false⟩) = .ok [Action.wipe]
      ∧ Action.wipe ∈ disableKeyboardShortcuts ⟨some 123, false, false⟩) :=
  ⟨by decide, by decide, rfl,
    c7_resize_f12 ⟨100, 100, 100, 100⟩ ⟨some 123, false, false⟩ (by decide) (by decide) rfl⟩

/-- C8: the wipe is idempotent: on a (well-formed) populated state it
leaves every surface empty after the first call and unchanged after a
second call, and invoking it on the already-empty state is a no-op. -/
theorem c8_wipe_idempotent (s : WipeState) (hwf : wfJar s.cookies) :
    handleDevToolsOpen s = ⟨[], [], []⟩
  ∧ handleDevToolsOpen (handleDevToolsOpen s) = handleDevToolsOpen s
  ∧ handleDevToolsOpen ⟨[], [], []⟩ = ⟨[], [], []⟩ := by
  have h1 : handleDevToolsOpen s = ⟨[], [], []⟩ := by
    show WipeState.mk [] [] (wipeCookies s.cookies) = ⟨[], [], []⟩
    rw [wipeCookies_eq_nil hwf]
  have h3 : handleDevToolsOpen ⟨[], [], []⟩ = ⟨[], [], []⟩ := by decide
  exact ⟨h1, by rw [h1, h3], h3⟩

theorem c8_wipe_idempotent_witness :
    wfJar demoWipe.cookies
  ∧ (handleDevToolsOpen demoWipe = ⟨[], [], []⟩
      ∧ handleDevToolsOpen (handleDevToolsOpen demoWipe) = handleDevToolsOpen demoWipe
      ∧ handleDevToolsOpen ⟨[], [], []⟩ = ⟨[], [], []⟩) :=
  ⟨by decide, c8_wipe_idempotent demoWipe (by decide)⟩

/-- C2, counterexample: in an environment where the local-storage clear
throws, a populated session storage is NOT cleared and the error
propagates: the wipe does not attempt the remaining sub-operations. -/
theorem c2_containment_counterexample :
    (handleDevToolsOpenE ⟨true, false, false⟩
        ⟨[], [(strOf "t", strOf "u")], []⟩).1.sessionStorage ≠ []
  ∧ (handleDevToolsOpenE ⟨true, false, false⟩
        ⟨[], [(strOf "t", strOf "u")], []⟩).2.isSome = true := by decide

/-- C2, amended: the wipe contains no error handling; its sub-operations
run in sequence (local clear, session clear, cookie expiry) and the first
one that throws aborts the wipe, leaving all later surfaces untouched and
propagating the error; when no surface throws all three complete. -/
theorem c2_no_containment_amended (env : StorageEnv) (s : WipeState) :
    (env.localThrows = true →
        handleDevToolsOpenE env s = (s, some "localStorage unavailable"))
  ∧ (env.localThrows = false → env.sessionThrows = true →
        handleDevToolsOpenE env s =
          ({ s with localStorage := [] }, some "sessionStorage unavailable"))
  ∧ (env.localThrows = false → env.sessionThrows = false → env.cookieThrows = true →
        handleDevToolsOpenE env s =
          ({ s with localStorage := [], sessionStorage := [] },
            some "document.cookie unavailable"))
  ∧ (env.localThrows = false → env.sessionThrows = false → env.cookieThrows = false →
        handleDevToolsOpenE env s = (handleDevToolsOpen s, none)) := by
  refine ⟨fun h1 => ?_, fun h1 h2 => ?_, fun h1 h2 h3 => ?_, fun h1 h2 h3 => ?_⟩
  · simp [handleDevToolsOpenE, h1]
  · simp [handleDevToolsOpenE, h1, h2]
  · simp [handleDevToolsOpenE, h1, h2, h3]
  · simp [handleDevToolsOpenE, handleDevToolsOpen, h1, h2, h3]

theorem c2_no_containment_amended_witness :
    (StorageEnv.mk true false false).localThrows = true
  ∧ handleDevToolsOpenE ⟨true, false, false⟩ ⟨[], [(strOf "t", strOf "u")], []⟩ =
      (⟨[], [(strOf "t", strOf "u")], []⟩, some "localStorage unavailable") :=
  ⟨rfl, (c2_no_containment_amended ⟨true, false, false⟩ _).1 rfl⟩

/-- C1: the claim fails on the code.  Evaluating the effect body and its
cleanup on a page whose five console slots hold five distinct host
functions: while active, all five slots are the silent no-op; after the
cleanup only `console.log` is restored to its pre-activation reference,
and `warn`, `error`, `debug`, `info` remain the guard's no-ops (the
source saves only `console.log` at line 97 and restores only it at
line 109). -/
theorem c1_console_restore_bug :
    ((effectSetup demoConsole).1.consoleLog = Fn.guardNoop
      ∧ (effectSetup demoConsole).1.consoleWarn = Fn.guardNoop
      ∧ (effectSetup demoConsole).1.consoleError = Fn.guardNoop
      ∧ (effectSetup demoConsole).1.consoleDebug = Fn.guardNoop
      ∧ (effectSetup demoConsole).1.consoleInfo = Fn.guardNoop)
  ∧ (∀ out : Nat → List String,
        callOutput out (effectSetup demoConsole).1.consoleLog = []
      ∧ callOutput out (effectSetup demoConsole).1.consoleWarn = []
      ∧ callOutput out (effectSetup demoConsole).1.consoleError = []
      ∧ callOutput out (effectSetup demoConsole).1.consoleDebug = []
      ∧ callOutput out (effectSetup demoConsole).1.consoleInfo = [])
  ∧ (effectCleanup (effectSetup demoConsole).2 (effectSetup demoConsole).1).consoleLog
      = Fn.host 0
  ∧ (effectCleanup (effectSetup demoConsole).2 (effectSetup demoConsole).1).consoleWarn
      = Fn.guardNoop
  ∧ (effectCleanup (effectSetup demoConsole).2 (effectSetup demoConsole).1).consoleWarn
      ≠ Fn.host 1
  ∧ (effectCleanup (effectSetup demoConsole).2 (effectSetup demoConsole).1).consoleError
      ≠ Fn.host 2
  ∧ (effectCleanup (effectSetup demoConsole).2 (effectSetup demoConsole).1).consoleDebug
      ≠ Fn.host 3
  ∧ (effectCleanup (effectSetup demoConsole).2 (effectSetup demoConsole).1).consoleInfo
      ≠ Fn.host 4 :=
  ⟨by decide, fun _ => ⟨rfl, rfl, rfl, rfl, rfl⟩,
    by decide, by decide, by decide, by decide, by decide, by decide⟩

/-- Canonical form of the cleanup as a state transformer. -/
theorem effectCleanup_eq (h : GuardHandle) (t : GuardHostState) :
    effectCleanup h t =
      { consoleLog := h.consoleOutput
        consoleWarn := t.consoleWarn
        consoleError := t.consoleError
        consoleDebug := t.consoleDebug
        consoleInfo := t.consoleInfo
        listeners :=
          removeEventListener (removeEventListener (removeEventListener t.listeners
            .resize .detectDevTools) .contextmenu .disableRightClick)
            .keydown .disableKeyboardShortcuts } := rfl

theorem removeEventListener_chain_idem (l : List (EventKind × Handler)) :
    removeEventListener (removeEventListener (removeEventListener
      (removeEventListener (removeEventListener (removeEventListener l
        .resize .detectDevTools) .contextmenu .disableRightClick)
        .keydown .disableKeyboardShortcuts)
      .resize .detectDevTools) .contextmenu .disableRightClick)
      .keydown .disableKeyboardShortcuts
    = removeEventListener (removeEventListener (removeEventListener l
        .resize .detectDevTools) .contextmenu .disableRightClick)
        .keydown .disableKeyboardShortcuts := by
  unfold removeEventListener
  simp only [List.filter_filter]
  apply List.filter_congr
  intro a _
  by_cases h1 : a = (EventKind.resize, Handler.detectDevTools) <;>
    by_cases h2 : a = (EventKind.contextmenu, Handler.disableRightClick) <;>
      by_cases h3 : a = (EventKind.keydown, Handler.disableKeyboardShortcuts) <;>
        simp [h1, h2, h3]

/-- C9: invoking the cleanup more than once is a harmless no-op: the second
invocation leaves the whole host state (listener table and console slots)
unchanged, and all three subscriptions are already gone after the first. -/
theorem c9_cleanup_idempotent (h : GuardHandle) (s : GuardHostState) :
    effectCleanup h (effectCleanup h s) = effectCleanup h s
  ∧ (EventKind.resize, Handler.detectDevTools) ∉ (effectCleanup h s).listeners
  ∧ (EventKind.contextmenu, Handler.disableRightClick) ∉ (effectCleanup h s).listeners
  ∧ (EventKind.keydown, Handler.disableKeyboardShortcuts) ∉ (effectCleanup h s).listeners := by
  refine ⟨?_, ?_, ?_, ?_⟩
  · rw [effectCleanup_eq h (effectCleanup h s), effectCleanup_eq h s]
    simp only
    rw [removeEventListener_chain_idem]
  · rw [effectCleanup_eq]
    simp only [removeEventListener]
    intro hmem
    have hm1 := List.mem_of_mem_filter (List.mem_of_mem_filter hmem)
    have := (List.mem_filter.1 hm1).2
    simp at this
  · rw [effectCleanup_eq]
    simp only [removeEventListener]
    intro hmem
    have hm1 := List.mem_of_mem_filter hmem
    have := (List.mem_filter.1 hm1).2
    simp at this
  · rw [effectCleanup_eq]
    simp only [removeEventListener]
    intro hmem
    have := (List.mem_filter.1 hmem).2
    simp at this

/-- C10: invoking the resize handler with no event object never throws
(the F12 test uses optional chaining), and in that case the wipe fires
exactly when one of the two geometry thresholds is exceeded. -/
theorem c10_resize_without_event (g : Geometry) :
    detectDevTools g none =
      .ok (if g.outerWidth - g.innerWidth > 160 ∨ g.outerHeight - g.innerHeight > 160
           then [Action.wipe] else []) := by
  unfold detectDevTools
  by_cases hw : g.outerWidth - g.innerWidth > 160 <;>
    by_cases hh : g.outerHeight - g.innerHeight > 160 <;>
      simp [jsOptKeyCode, hw, hh]

end AntiInspect
